import Mathlib

/-!
Verification of the solver module of a nested tic-tac-toe program.

The solver source (`src/solver/mod.rs`) is embedded shallowly below:

* `Outcome`, `Solution`, `Outcome.compare`, `Solution.compare`,
  `Game.solve_0`, `Game.solve_1`, `Game.solve_for`, `best_solution_1` and
  `outcome_cache` are translated directly from the Rust source.
* The position data model (`data` module: `Game`, `Player`, `Play`,
  `GameState`, `valid_plays`, `play`, `next_player`, `state`) is not part of
  the analysed source; it is modelled from the spec as a tree of positions
  carrying exactly the interface the solver consumes.
* Rust panics (`panic!`, `unimplemented!`, `Option::unwrap` on `None`) are
  modelled as `Except.error` values of type `SolverError`, so fallible paths
  are explicit.
* Rust's `Vec::sort_by` is a stable ascending sort by a comparator; it is
  modelled by `List.mergeSort` with the `le` relation "comparator does not
  return `Greater`".
* `Count` is `u8` in the source.  The solver performs no arithmetic on
  `Count` values (it only constructs the literal `0` and compares counts),
  so `Nat` embeds the used fragment faithfully; no overflow is reachable.
-/

set_option linter.unusedVariables false

namespace Uttt

/-- Modelled from the spec: the two players X and O of the two-player game
(the `Player` type lives in the repository's `data` module, which is not in
the analysed source). -/
inductive Player where
| X
| O
deriving DecidableEq, Repr

/-- Modelled from the spec: the opponent of a player (used by the source as
`p.opponent()`). -/
def Player.opponent : Player → Player
| Player.X => Player.O
| Player.O => Player.X

/-- Modelled from the spec: terminal-state classification of a position,
`classify(position) -> WonBy(player) | Tied | Ongoing` (the Rust `GameState`
enum with variants `Won(Player)`, `Tied`, `Ongoing`). -/
inductive GameState where
| Won (player : Player)
| Tied
| Ongoing
deriving DecidableEq, Repr

/-- Modelled from the spec: a legal move.  The spec treats moves as opaque
values whose only role in the solver is identity (enumeration order and
lookup), so they are modelled as opaque identifiers. -/
abbrev Play := Nat

/-- Modelled from the spec: an immutable position of the game, carrying
exactly the interface the solver consumes: its terminal classification,
the next player to move (`none` if terminal), and the finite,
order-significant list of legal moves together with the position each move
produces. -/
inductive Game where
| mk (state : GameState) (next_player : Option Player) (children : List (Play × Game))

/-- Modelled from the spec: terminal-state classification of this position. -/
def Game.state : Game → GameState
| Game.mk s _ _ => s

/-- Modelled from the spec: `nextPlayer(position) -> player or none if
terminal`. -/
def Game.next_player : Game → Option Player
| Game.mk _ np _ => np

/-- Modelled from the spec: the move list of the position paired with the
position each move produces. -/
def Game.children : Game → List (Play × Game)
| Game.mk _ _ cs => cs

mutual

/-- Modelled from the spec: structural equality of positions (the spec
requires positions to support structural equality so they can key a cache). -/
def Game.beq : Game → Game → Bool
| Game.mk s1 n1 c1, Game.mk s2 n2 c2 => s1 == s2 && n1 == n2 && Game.beqChildren c1 c2

/-- Modelled from the spec: structural equality of move lists. -/
def Game.beqChildren : List (Play × Game) → List (Play × Game) → Bool
| [], [] => true
| (p1, g1) :: r1, (p2, g2) :: r2 => p1 == p2 && Game.beq g1 g2 && Game.beqChildren r1 r2
| _, _ => false

end

instance : BEq Game := ⟨Game.beq⟩

/-- Modelled from the spec: `legalMoves(position) -> sequence of Move`
(finite, order-significant for tie-break). -/
def Game.valid_plays (g : Game) : List Play :=
  g.children.map Prod.fst

/-- Modelled from the spec: `apply(position, move) -> Position or failure if
move illegal`; moves returned by `valid_plays` always apply successfully. -/
def Game.play (g : Game) (p : Play) : Option Game :=
  (g.children.find? (fun c => c.fst == p)).map Prod.snd

/-- The turn-count type of the source (`pub type Count = u8`); see the module
comment for why `Nat` is a faithful embedding here. -/
abbrev Count := Nat

/-- The computed outcome of a game (Rust `Outcome` enum): a win for a player
in some number of turns, a tie in some number of turns, or unknown at a
search depth. -/
inductive Outcome where
| Win (player : Player) (turns : Count)
| Tie (turns : Count)
| Unknown (depth : Count)
deriving DecidableEq, Repr

/-- A solution to a game state (Rust `Solution` struct): the optimal next
play (optional) and the resulting outcome. -/
structure Solution where
  opt_play : Option Play
  outcome : Outcome
deriving DecidableEq, Repr

/-- The errors with which the embedded solver can abort, modelling the Rust
panics: `emptySolutions` is the `panic!` for an empty solutions vector in
`solve_1`, `unwrapFailed` is `Option::unwrap` applied to `None`, and
`unimplementedDepth` is the `unimplemented!()` arms of `solve_for`. -/
inductive SolverError where
| emptySolutions
| unwrapFailed
| unimplementedDepth
deriving DecidableEq, Repr

/-- Rust `u8::cmp` on turn counts (`t1.cmp(&t2)`). -/
def Count.cmp (a b : Count) : Ordering :=
  if a < b then Ordering.lt
  else if b < a then Ordering.gt
  else Ordering.eq

/-- Rust `Outcome::compare`: compare two outcomes from the point of view of
the given player (translated arm by arm from the source). -/
def Outcome.compare (p : Player) (a b : Outcome) : Ordering :=
  let o := p.opponent
  match a, b with
  | Outcome.Win p1 t1, Outcome.Win p2 t2 =>
    if p1 = p ∧ p2 = o then Ordering.gt
    else if p1 = o ∧ p2 = p then Ordering.lt
    else Count.cmp t1 t2
  | Outcome.Win p1 _, Outcome.Tie _ =>
    if p1 = p then Ordering.gt else Ordering.lt
  | Outcome.Tie _, Outcome.Win p1 _ =>
    if p1 = o then Ordering.gt else Ordering.lt
  | Outcome.Win p1 _, Outcome.Unknown _ =>
    if p1 = p then Ordering.gt else Ordering.lt
  | Outcome.Unknown _, Outcome.Win p1 _ =>
    if p1 = o then Ordering.gt else Ordering.lt
  | Outcome.Tie t1, Outcome.Tie t2 => Count.cmp t1 t2
  | Outcome.Tie _, Outcome.Unknown _ => Ordering.lt
  | Outcome.Unknown _, Outcome.Tie _ => Ordering.gt
  | Outcome.Unknown _, Outcome.Unknown _ => Ordering.eq

/-- Rust `Solution::compare`: compare two solutions.  The source computes the
opponent into an unused binding and unconditionally returns `Equal`. -/
def Solution.compare (player : Player) (a b : Solution) : Ordering :=
  let o := player.opponent
  Ordering.eq

/-- The `le` relation that `Vec::sort_by(|a, b| Solution::compare(p, a, b))`
sorts ascending by: a solution is `le` another when the comparator does not
return `Greater`. -/
def solution_le (p : Player) (a b : Solution) : Bool :=
  match Solution.compare p a b with
  | Ordering.gt => false
  | _ => true

/-- Rust `Game::solve_0`: the solution for depth 0. -/
def Game.solve_0 (g : Game) : Solution :=
  match g.state with
  | GameState.Won player => { opt_play := none, outcome := Outcome.Win player 0 }
  | GameState.Tied => { opt_play := none, outcome := Outcome.Tie 0 }
  | GameState.Ongoing => { opt_play := none, outcome := Outcome.Unknown 0 }

/-- The solutions vector built inside `solve_1`:
`self.valid_plays().iter().map(|&play| self.play(play).unwrap().solve_0()).collect()`,
evaluated left to right with the first failed unwrap aborting. -/
def solve_children (g : Game) : List Play → Except SolverError (List Solution)
| [] => Except.ok []
| play :: rest =>
  match g.play play with
  | none => Except.error SolverError.unwrapFailed
  | some child =>
    match solve_children g rest with
    | Except.error e => Except.error e
    | Except.ok sols => Except.ok (child.solve_0 :: sols)

/-- Rust `best_solution_1`: stable-sort the solutions ascending by
`Solution::compare` and take the first (`None` models the `unwrap` panic on
an empty vector). -/
def best_solution_1 (p : Player) (solutions : List Solution) : Option Solution :=
  (solutions.mergeSort (solution_le p)).head?

/-- Rust `Game::solve_1`: the solution for depth 1. -/
def Game.solve_1 (g : Game) : Except SolverError Solution :=
  let solution := g.solve_0
  match solution.outcome with
  | Outcome.Win _ _ => Except.ok solution
  | Outcome.Tie _ => Except.ok solution
  | Outcome.Unknown _ =>
    match solve_children g g.valid_plays with
    | Except.error e => Except.error e
    | Except.ok solutions =>
      if solutions.isEmpty then Except.error SolverError.emptySolutions
      else
        match g.next_player with
        | none => Except.error SolverError.unwrapFailed
        | some player =>
          match best_solution_1 player solutions with
          | none => Except.error SolverError.unwrapFailed
          | some s => Except.ok s

/-- Rust `Game::solve_for`: the solution for a given depth.  The source's
`2` arm and its catch-all arm are both `unimplemented!()`, so they are
embedded as one arm. -/
def Game.solve_for (g : Game) (depth : Count) : Except SolverError Solution :=
  match depth with
  | 0 => Except.ok g.solve_0
  | 1 => g.solve_1
  | _ => Except.error SolverError.unimplementedDepth

/-- Modelled from the spec: a least-recently-used cache (the external
`lru_time_cache::LruCache` used by the source), as a capacity-bounded
association list with most recent entries first. -/
structure LruCache (K V : Type) where
  capacity : Nat
  entries : List (K × V)

/-- Modelled from the spec: `LruCache::with_capacity`. -/
def LruCache.with_capacity (K V : Type) (capacity : Nat) : LruCache K V :=
  { capacity := capacity, entries := [] }

/-- Modelled from the spec: insert an entry, replacing any entry with the
same key and evicting the least recently used beyond capacity. -/
def LruCache.insert {K V : Type} [BEq K] (c : LruCache K V) (k : K) (v : V) : LruCache K V :=
  { c with entries := ((k, v) :: c.entries.filter (fun e => !(e.fst == k))).take c.capacity }

/-- Modelled from the spec: look an entry up by key. -/
def LruCache.get {K V : Type} [BEq K] (c : LruCache K V) (k : K) : Option V :=
  (c.entries.find? (fun e => e.fst == k)).map Prod.snd

/-- Rust `outcome_cache`: constructs and returns a least-recently-used cache;
per the source its key type is `Game` and its value type is `Outcome`. -/
def outcome_cache (capacity : Nat) : LruCache Game Outcome :=
  LruCache.with_capacity Game Outcome capacity

/-- A child position already won by X. -/
def childWonX : Game :=
  Game.mk (GameState.Won Player.X) none []

/-- A non-terminal position with exactly one legal play, leading to
`childWonX`. -/
def oneMoveGame : Game :=
  Game.mk GameState.Ongoing (some Player.X) [(0, childWonX)]

/-- A non-terminal position with no legal plays (violating the position
model's invariant, used to exercise the solver's internal-invariant check). -/
def noMoveGame : Game :=
  Game.mk GameState.Ongoing (some Player.X) []

/-- A terminal tied position. -/
def tiedGame : Game :=
  Game.mk GameState.Tied none []

/-- A terminal position won by O. -/
def wonGame : Game :=
  Game.mk (GameState.Won Player.O) none []

/-- `Solution.compare` returns `Equal` on every pair, so the derived `le`
relation used by the sort holds everywhere. -/
theorem solution_le_true (p : Player) (a b : Solution) : solution_le p a b = true := rfl

/-- Every list of solutions is pairwise `solution_le`-related. -/
theorem pairwise_solution_le (p : Player) : ∀ l : List Solution, l.Pairwise (fun a b => solution_le p a b = true)
| [] => List.Pairwise.nil
| a :: l => List.Pairwise.cons (fun b _ => solution_le_true p a b) (pairwise_solution_le p l)

/-- Because the comparator ranks all solutions equal and the sort is stable,
`best_solution_1` is just the head of the candidate list in enumeration
order. -/
theorem best_solution_1_head (p : Player) (l : List Solution) : best_solution_1 p l = l.head? := by
  unfold best_solution_1
  rw [List.mergeSort_of_sorted (pairwise_solution_le p l)]

/-- `solve_0` never recommends a play. -/
theorem Game.solve_0_opt_play (g : Game) : g.solve_0.opt_play = none := by
  cases hs : g.state <;> simp [Game.solve_0, hs]

/-- `solve_0` on an ongoing position. -/
theorem Game.solve_0_ongoing {g : Game} (hs : g.state = GameState.Ongoing) :
    g.solve_0 = { opt_play := none, outcome := Outcome.Unknown 0 } := by
  simp [Game.solve_0, hs]

/-- `solve_0` on a won position. -/
theorem Game.solve_0_won {g : Game} {p : Player} (hs : g.state = GameState.Won p) :
    g.solve_0 = { opt_play := none, outcome := Outcome.Win p 0 } := by
  simp [Game.solve_0, hs]

/-- `solve_0` on a tied position. -/
theorem Game.solve_0_tied {g : Game} (hs : g.state = GameState.Tied) :
    g.solve_0 = { opt_play := none, outcome := Outcome.Tie 0 } := by
  simp [Game.solve_0, hs]

/-- Applying a play drawn from `valid_plays` always succeeds. -/
theorem Game.play_isSome {g : Game} {p : Play} (hp : p ∈ g.valid_plays) :
    ∃ c, g.play p = some c := by
  unfold Game.valid_plays at hp
  obtain ⟨e, he, hfst⟩ := List.mem_map.1 hp
  have hfind : (g.children.find? (fun c => c.fst == p)).isSome := by
    rw [List.find?_isSome]
    exact ⟨e, he, by simp [hfst]⟩
  obtain ⟨e2, he2⟩ := Option.isSome_iff_exists.1 hfind
  exact ⟨e2.snd, by simp [Game.play, he2]⟩

/-- When every play in the list applies successfully, the solutions vector is
built successfully and has one entry per play. -/
theorem solve_children_ok (g : Game) : ∀ plays : List Play,
    (∀ p ∈ plays, ∃ c, g.play p = some c) →
    ∃ sols, solve_children g plays = Except.ok sols ∧ sols.length = plays.length
| [], _ => ⟨[], rfl, rfl⟩
| play :: rest, h => by
  obtain ⟨c, hc⟩ := h play (List.mem_cons_self play rest)
  obtain ⟨sols, hsols, hlen⟩ :=
    solve_children_ok g rest (fun p hp => h p (List.mem_cons_of_mem _ hp))
  exact ⟨c.solve_0 :: sols, by simp [solve_children, hc, hsols], by simp [hlen]⟩

/-- Every solution in a successfully built solutions vector is some child's
depth-0 solution, hence carries no recommended play. -/
theorem solve_children_opt_play (g : Game) : ∀ (plays : List Play) (sols : List Solution),
    solve_children g plays = Except.ok sols → ∀ s ∈ sols, s.opt_play = none
| [], sols, h => by
  simp [solve_children] at h
  subst h
  intro s hs
  simp at hs
| play :: rest, sols, h => by
  cases hc : g.play play with
  | none => simp [solve_children, hc] at h
  | some child =>
    cases hrec : solve_children g rest with
    | error e => simp [solve_children, hc, hrec] at h
    | ok sols2 =>
      simp [solve_children, hc, hrec] at h
      intro s hs
      rw [← h] at hs
      rcases List.mem_cons.1 hs with h1 | h2
      · rw [h1]; exact Game.solve_0_opt_play child
      · exact solve_children_opt_play g rest sols2 hrec s h2

/-- Central depth-1 lemma: on an ongoing position whose first listed move
leads to child `c` and whose next player is present, `solve_1` returns the
first child's depth-0 solution unchanged. -/
theorem Game.solve_1_cons (g : Game) (pl : Play) (c : Game) (rest : List (Play × Game)) (q : Player)
    (hs : g.state = GameState.Ongoing) (hc : g.children = (pl, c) :: rest)
    (hn : g.next_player = some q) :
    g.solve_1 = Except.ok c.solve_0 := by
  have hvp : g.valid_plays = pl :: rest.map Prod.fst := by simp [Game.valid_plays, hc]
  have hplay : g.play pl = some c := by
    simp [Game.play, hc, List.find?]
  have hrest : ∀ p ∈ rest.map Prod.fst, ∃ c2, g.play p = some c2 := by
    intro p hp
    apply Game.play_isSome
    rw [hvp]
    exact List.mem_cons_of_mem _ hp
  obtain ⟨sols, hsols, hlen⟩ := solve_children_ok g (rest.map Prod.fst) hrest
  have hchild : solve_children g g.valid_plays = Except.ok (c.solve_0 :: sols) := by
    rw [hvp]
    simp [solve_children, hplay, hsols]
  simp [Game.solve_1, Game.solve_0_ongoing hs, hchild, hn, best_solution_1_head]

/-- On a position whose state is not ongoing, `solve_1` returns the depth-0
solution unchanged. -/
theorem Game.solve_1_terminal {g : Game} (hs : g.state ≠ GameState.Ongoing) :
    g.solve_1 = Except.ok g.solve_0 := by
  cases h : g.state with
  | Won p => simp [Game.solve_1, Game.solve_0_won h]
  | Tied => simp [Game.solve_1, Game.solve_0_tied h]
  | Ongoing => exact absurd h hs

/-- On an ongoing position with an empty move list, `solve_1` fails with the
internal-invariant error. -/
theorem Game.solve_1_empty {g : Game} (hs : g.state = GameState.Ongoing)
    (hp : g.valid_plays = []) : g.solve_1 = Except.error SolverError.emptySolutions := by
  simp [Game.solve_1, Game.solve_0_ongoing hs, hp, solve_children]

/-- C1: the spec requires the depth-1 solve to re-tag each child outcome with
the child's turn count plus one before comparison, so a non-terminal position
with exactly one legal move should yield the child's depth-0 classification
with turns incremented by 1.  The code applies no increment: on `oneMoveGame`
(ongoing, next player X, a single legal play leading to a child already won
by X) the child's depth-0 classification is `Win X 0`, and the depth-1 solve
of the parent returns exactly `Win X 0` as well — not `Win X 1` as the claim
(and the source's own documentation table, which shows `Win X 1` one ply
before `Win X 0`) requires. -/
theorem C1_no_turn_increment :
    Game.solve_0 childWonX = { opt_play := none, outcome := Outcome.Win Player.X 0 } ∧
    Game.solve_for oneMoveGame 1 = Except.ok { opt_play := none, outcome := Outcome.Win Player.X 0 } := by
  constructor
  · rfl
  · show oneMoveGame.solve_1 = _
    rw [Game.solve_1_cons oneMoveGame 0 childWonX [] Player.X rfl rfl rfl]
    rfl

/-- C2: the spec requires `best_solution_1` to return a candidate maximal for
the player under `Outcome.compare`.  The code sorts with `Solution.compare`,
which returns `Equal` on every pair, so the stable sort leaves the list
unchanged and the first candidate is returned regardless of its outcome: with
candidates `[Win O 0, Win X 0]` and player X, the chosen solution is
`Win O 0`, even though `Outcome.compare` ranks it strictly below the other
candidate. -/
theorem C2_best_solution_1_ignores_comparator :
    best_solution_1 Player.X
      [ { opt_play := none, outcome := Outcome.Win Player.O 0 },
        { opt_play := none, outcome := Outcome.Win Player.X 0 } ] =
      some { opt_play := none, outcome := Outcome.Win Player.O 0 } ∧
    Outcome.compare Player.X (Outcome.Win Player.O 0) (Outcome.Win Player.X 0) = Ordering.lt := by
  constructor
  · rw [best_solution_1_head]
    rfl
  · rfl

/-- C3: the claim says a non-terminal position solved at depth ≥ 1 yields a
present recommended play drawn from `valid_plays`.  In fact every `Solution`
the code returns, at every depth and for every position, has `opt_play =
none`: `solve_0` always sets `none` and `solve_1` returns one of the
children's depth-0 solutions unchanged. -/
theorem C3_no_recommended_play (g : Game) (d : Count) (s : Solution)
    (h : g.solve_for d = Except.ok s) : s.opt_play = none := by
  match d with
  | 0 =>
    simp [Game.solve_for] at h
    rw [← h]
    exact Game.solve_0_opt_play g
  | 1 =>
    have h1 : g.solve_1 = Except.ok s := h
    rw [Game.solve_1] at h1
    cases ho : (g.solve_0).outcome with
    | Win p t =>
      rw [ho] at h1
      simp at h1
      rw [← h1]
      exact Game.solve_0_opt_play g
    | Tie t =>
      rw [ho] at h1
      simp at h1
      rw [← h1]
      exact Game.solve_0_opt_play g
    | Unknown dep =>
      rw [ho] at h1
      cases hcs : solve_children g g.valid_plays with
      | error e =>
        rw [hcs] at h1
        simp at h1
      | ok sols =>
        rw [hcs] at h1
        cases hemp : sols.isEmpty with
        | true =>
          simp [hemp] at h1
        | false =>
          simp only [hemp, Bool.false_eq_true, if_false] at h1
          cases hn : g.next_player with
          | none =>
            rw [hn] at h1
            simp at h1
          | some q =>
            rw [hn] at h1
            simp only [] at h1
            rw [best_solution_1_head] at h1
            cases sols with
            | nil => simp at hemp
            | cons a rest =>
              simp at h1
              rw [← h1]
              exact solve_children_opt_play g g.valid_plays (a :: rest) hcs a (List.mem_cons_self a rest)
  | n + 2 =>
    simp [Game.solve_for] at h

/-- C3 witness: the depth-0 solve of the tied position carries no play. -/
theorem C3_witness : (Game.solve_0 tiedGame).opt_play = none :=
  C3_no_recommended_play tiedGame 0 (Game.solve_0 tiedGame) rfl

/-- C4 counterexample: the claim says an Unknown outcome ranks strictly
below any resolved Tie from P's perspective (comparator result `lt`), but
the code ranks Unknown strictly above Tie: comparing `Unknown` against `Tie`
for player X yields `gt`, and `Tie` against `Unknown` yields `lt`. -/
theorem C4_counterexample :
    Outcome.compare Player.X (Outcome.Unknown 0) (Outcome.Tie 0) = Ordering.gt ∧
    Outcome.compare Player.X (Outcome.Tie 0) (Outcome.Unknown 0) = Ordering.lt :=
  ⟨rfl, rfl⟩

/-- C4 amended: from P's perspective the comparator ranks Unknown strictly
below any resolved win for P, strictly above any resolved win for P's
opponent, and strictly above any resolved Tie; two Unknowns compare as equal
regardless of their depth fields. -/
theorem C4_unknown_ranking (p : Player) (t d d2 : Count) :
    Outcome.compare p (Outcome.Unknown d) (Outcome.Win p t) = Ordering.lt ∧
    Outcome.compare p (Outcome.Win p t) (Outcome.Unknown d) = Ordering.gt ∧
    Outcome.compare p (Outcome.Unknown d) (Outcome.Win p.opponent t) = Ordering.gt ∧
    Outcome.compare p (Outcome.Win p.opponent t) (Outcome.Unknown d) = Ordering.lt ∧
    Outcome.compare p (Outcome.Unknown d) (Outcome.Tie t) = Ordering.gt ∧
    Outcome.compare p (Outcome.Tie t) (Outcome.Unknown d) = Ordering.lt ∧
    Outcome.compare p (Outcome.Unknown d) (Outcome.Unknown d2) = Ordering.eq := by
  cases p <;> simp [Outcome.compare, Player.opponent]

/-- C5 counterexample: the claim says that between two wins for P fewer
turns ranks strictly better (comparator result `gt`, the "better" direction,
as the second conjunct shows for a win for P against a win for the
opponent).  The code compares own-win turn counts numerically, so the faster
win `Win X 0` ranks strictly below the slower `Win X 1` from X's
perspective. -/
theorem C5_counterexample :
    Outcome.compare Player.X (Outcome.Win Player.X 0) (Outcome.Win Player.X 1) = Ordering.lt ∧
    Outcome.compare Player.X (Outcome.Win Player.X 1) (Outcome.Win Player.O 1) = Ordering.gt :=
  ⟨rfl, rfl⟩

/-- C5 amended: for two wins by the same winner (whether P or the
opponent), the comparator orders them by plain numeric turn comparison:
fewer turns ranks strictly lower, more turns strictly higher.  This matches
the claim for opponent wins (more turns better) but is the reverse of the
claim for P's own wins. -/
theorem C5_win_turns_ordering (p q : Player) (t1 t2 : Count) (h : t1 < t2) :
    Outcome.compare p (Outcome.Win q t1) (Outcome.Win q t2) = Ordering.lt ∧
    Outcome.compare p (Outcome.Win q t2) (Outcome.Win q t1) = Ordering.gt := by
  have h1 : Count.cmp t1 t2 = Ordering.lt := by simp [Count.cmp, h]
  have h2 : Count.cmp t2 t1 = Ordering.gt := by
    have hn : ¬ t2 < t1 := Nat.lt_asymm h
    simp [Count.cmp, hn, h]
  cases p <;> cases q <;> simp [Outcome.compare, Player.opponent, h1, h2]

/-- C5 witness: instance of the amended ordering at player X, turns 1 < 2. -/
theorem C5_witness :
    Outcome.compare Player.X (Outcome.Win Player.X 1) (Outcome.Win Player.X 2) = Ordering.lt ∧
    Outcome.compare Player.X (Outcome.Win Player.X 2) (Outcome.Win Player.X 1) = Ordering.gt :=
  C5_win_turns_ordering Player.X Player.X 1 2 (by decide)

/-- C6 counterexample: the claim says `solve_for` is total at every depth,
but at depth 2 it reaches the source's `unimplemented!()` arm on the tied
position. -/
theorem C6_counterexample :
    Game.solve_for tiedGame 2 = Except.error SolverError.unimplementedDepth := rfl

/-- C6 amended: `solve_for` returns a Solution for depth 0 always and for
depth 1 under the position model's contract (ongoing positions have at least
one legal move and a next player); every depth ≥ 2 reaches an unimplemented
arm and fails, so arbitrary depth is not supported uniformly. -/
theorem C6_solve_for_depth_support (g : Game) (d : Count) :
    (d ≤ 1 → (g.state = GameState.Ongoing → g.children ≠ [] ∧ g.next_player ≠ none) →
      ∃ s, g.solve_for d = Except.ok s) ∧
    (2 ≤ d → g.solve_for d = Except.error SolverError.unimplementedDepth) := by
  constructor
  · intro hd hcontract
    match d, hd with
    | 0, _ => exact ⟨g.solve_0, rfl⟩
    | 1, _ =>
      show ∃ s, g.solve_1 = Except.ok s
      cases hs : g.state with
      | Won p => exact ⟨g.solve_0, Game.solve_1_terminal (by simp [hs])⟩
      | Tied => exact ⟨g.solve_0, Game.solve_1_terminal (by simp [hs])⟩
      | Ongoing =>
        obtain ⟨hne, hnp⟩ := hcontract hs
        cases hcg : g.children with
        | nil => exact absurd hcg hne
        | cons e rest =>
          obtain ⟨q, hq⟩ := Option.ne_none_iff_exists'.1 hnp
          exact ⟨e.snd.solve_0,
            Game.solve_1_cons g e.fst e.snd rest q hs (by rw [hcg]) hq⟩
  · intro hd
    match d, hd with
    | n + 2, _ => rfl

/-- C6 witness: at depth 1 the won position solves successfully; at depth 2
it fails with the unimplemented error. -/
theorem C6_witness :
    (∃ s, Game.solve_for wonGame 1 = Except.ok s) ∧
    Game.solve_for wonGame 2 = Except.error SolverError.unimplementedDepth :=
  ⟨(C6_solve_for_depth_support wonGame 1).1 (by decide) (fun h => nomatch h),
   (C6_solve_for_depth_support wonGame 2).2 (by decide)⟩

/-- C7 counterexample: the claim says terminal classification is
depth-invariant for every depth ≥ 0, but at depth 2 even a terminal
position (already won by X) fails with the unimplemented error instead of
returning the depth-0 Outcome. -/
theorem C7_counterexample :
    Game.solve_for childWonX 2 = Except.error SolverError.unimplementedDepth := rfl

/-- C7 amended: for depth 0 and depth 1 a terminal position's solution is
exactly the depth-0 solution — no recommended play, and a Win or Tie with
turns = 0 matching the position's state; at depth ≥ 2 `solve_for` fails
(see the counterexample), so the depth-invariance holds only up to depth 1. -/
theorem C7_terminal_depth_invariant (g : Game) (d : Count) (hd : d ≤ 1)
    (hterm : g.state ≠ GameState.Ongoing) :
    g.solve_for d = Except.ok g.solve_0 ∧ g.solve_0.opt_play = none ∧
    ((∃ p, g.state = GameState.Won p ∧ g.solve_0.outcome = Outcome.Win p 0) ∨
      (g.state = GameState.Tied ∧ g.solve_0.outcome = Outcome.Tie 0)) := by
  refine ⟨?_, Game.solve_0_opt_play g, ?_⟩
  · match d, hd with
    | 0, _ => rfl
    | 1, _ => exact Game.solve_1_terminal hterm
  · cases hs : g.state with
    | Won p => exact Or.inl ⟨p, rfl, by simp [Game.solve_0_won hs]⟩
    | Tied => exact Or.inr ⟨rfl, by simp [Game.solve_0_tied hs]⟩
    | Ongoing => exact absurd hs hterm

/-- C7 witness: instance at the position won by O, depth 1. -/
theorem C7_witness :
    Game.solve_for wonGame 1 = Except.ok wonGame.solve_0 ∧ wonGame.solve_0.opt_play = none ∧
    ((∃ p, wonGame.state = GameState.Won p ∧ wonGame.solve_0.outcome = Outcome.Win p 0) ∨
      (wonGame.state = GameState.Tied ∧ wonGame.solve_0.outcome = Outcome.Tie 0)) :=
  C7_terminal_depth_invariant wonGame 1 (by decide) (by decide)

/-- C8 counterexample: the claim covers every depth ≥ 1 and calls the
internal-invariant failure the only fatal condition, but at depth 2 the
ongoing position with no legal moves fails with the distinct unimplemented
error, not the internal-invariant error. -/
theorem C8_counterexample :
    Game.solve_for noMoveGame 2 = Except.error SolverError.unimplementedDepth ∧
    SolverError.unimplementedDepth ≠ SolverError.emptySolutions :=
  ⟨rfl, by decide⟩

/-- C8 amended: at depth exactly 1, a non-terminal position with an empty
legal-move enumeration fails with the internal-invariant error rather than
returning a Solution, and — under the position model's contract that ongoing
positions have a next player — that error is the only fatal condition at
depth 1 and occurs only in exactly that situation.  (At depth ≥ 2 the solver
instead fails with the unimplemented error on every position.) -/
theorem C8_empty_plays_fatal (g : Game) :
    (g.state = GameState.Ongoing → g.valid_plays = [] →
      g.solve_for 1 = Except.error SolverError.emptySolutions) ∧
    ((g.state = GameState.Ongoing → g.next_player ≠ none) →
      ∀ e, g.solve_for 1 = Except.error e →
        g.state = GameState.Ongoing ∧ g.valid_plays = [] ∧ e = SolverError.emptySolutions) := by
  constructor
  · intro hs hp
    exact Game.solve_1_empty hs hp
  · intro hcontract e herr
    rw [show g.solve_for 1 = g.solve_1 from rfl] at herr
    cases hs : g.state with
    | Won p =>
      rw [Game.solve_1_terminal (by simp [hs])] at herr
      nomatch herr
    | Tied =>
      rw [Game.solve_1_terminal (by simp [hs])] at herr
      nomatch herr
    | Ongoing =>
      cases hcg : g.children with
      | nil =>
        have hp : g.valid_plays = [] := by simp [Game.valid_plays, hcg]
        rw [Game.solve_1_empty hs hp] at herr
        cases herr
        exact ⟨rfl, hp, rfl⟩
      | cons e1 rest =>
        have hnp := hcontract hs
        obtain ⟨q, hq⟩ := Option.ne_none_iff_exists'.1 hnp
        rw [Game.solve_1_cons g e1.fst e1.snd rest q hs (by rw [hcg]) hq] at herr
        nomatch herr

/-- C8 witness: the ongoing position with no legal moves fails at depth 1
with the internal-invariant error, and that error is indeed classified as
the only depth-1 fatal condition. -/
theorem C8_witness :
    Game.solve_for noMoveGame 1 = Except.error SolverError.emptySolutions ∧
    (noMoveGame.state = GameState.Ongoing ∧ noMoveGame.valid_plays = [] ∧
      SolverError.emptySolutions = SolverError.emptySolutions) :=
  ⟨(C8_empty_plays_fatal noMoveGame).1 rfl rfl,
   (C8_empty_plays_fatal noMoveGame).2 (fun _ => by decide) SolverError.emptySolutions
     ((C8_empty_plays_fatal noMoveGame).1 rfl rfl)⟩

mutual

/-- The structural equality on positions is reflexive. -/
theorem Game.beq_refl : ∀ g : Game, Game.beq g g = true
| Game.mk s n c => by simp [Game.beq, Game.beqChildren_refl c]

/-- The structural equality on move lists is reflexive. -/
theorem Game.beqChildren_refl : ∀ l : List (Play × Game), Game.beqChildren l l = true
| [] => by simp [Game.beqChildren]
| (p, g) :: r => by simp [Game.beqChildren, Game.beq_refl g, Game.beqChildren_refl r]

end

/-- C9 counterexample: the claim says cache entries are keyed by (position,
depth) and store a full Solution, so a result computed at one depth is never
returned for a request at a different depth.  The cache the source
constructs is keyed by the position alone and stores a bare Outcome: after
caching the depth-0 outcome of `oneMoveGame` (`Unknown 0`), a lookup for
`oneMoveGame` — with no depth to distinguish a depth-1 request — returns
that `Unknown 0`, although the depth-1 solve of the same position resolves
to `Win X 0`. -/
theorem C9_counterexample :
    ((outcome_cache 10).insert oneMoveGame (Game.solve_0 oneMoveGame).outcome).get oneMoveGame
      = some (Outcome.Unknown 0) ∧
    Game.solve_for oneMoveGame 1 =
      Except.ok { opt_play := none, outcome := Outcome.Win Player.X 0 } := by
  constructor
  · simp [outcome_cache, LruCache.with_capacity, LruCache.insert, LruCache.get, List.find?,
      show (oneMoveGame == oneMoveGame) = true from Game.beq_refl oneMoveGame]
    rfl
  · show oneMoveGame.solve_1 = _
    rw [Game.solve_1_cons oneMoveGame 0 childWonX [] Player.X rfl rfl rfl]
    rfl

/-- C9 amended: the cache constructed by `outcome_cache` is keyed by the
position (`Game`) alone — not by a (position, depth) pair — and its stored
value is a bare `Outcome`, not a full Solution: an outcome inserted for a
position is returned for any later request for that position, whatever depth
the requester intended. -/
theorem C9_cache_keyed_by_position (g : Game) (o : Outcome) (cap : Nat) (h : 0 < cap) :
    ((outcome_cache cap).insert g o).get g = some o := by
  obtain ⟨m, rfl⟩ : ∃ m, cap = m + 1 := ⟨cap - 1, by omega⟩
  simp [outcome_cache, LruCache.with_capacity, LruCache.insert, LruCache.get, List.find?,
    show (g == g) = true from Game.beq_refl g]

/-- C9 witness: instance at the tied position with capacity 1. -/
theorem C9_witness :
    ((outcome_cache 1).insert tiedGame (Outcome.Tie 0)).get tiedGame = some (Outcome.Tie 0) :=
  C9_cache_keyed_by_position tiedGame (Outcome.Tie 0) 1 (by decide)

/-- C10: on a non-terminal position with at least one legal move (and, per
the position model's contract, a next player), the depth-1 solve returns
exactly the depth-0 solution of the child reached by the first play in
`valid_plays` enumeration order, with no recommended play: the constant
`Equal` comparator makes the stable sort a no-op, and the head of the
candidate list is taken. -/
theorem C10_depth1_first_child (g : Game) (pl : Play) (c : Game)
    (hs : g.state = GameState.Ongoing) (hpl : g.valid_plays.head? = some pl)
    (hc : g.play pl = some c) (q : Player) (hn : g.next_player = some q) :
    g.solve_for 1 = Except.ok c.solve_0 ∧ c.solve_0.opt_play = none := by
  cases hcg : g.children with
  | nil =>
    rw [show g.valid_plays = [] from by simp [Game.valid_plays, hcg]] at hpl
    nomatch hpl
  | cons e rest =>
    have hple : pl = e.fst := by
      rw [show g.valid_plays = e.fst :: rest.map Prod.fst from by simp [Game.valid_plays, hcg]] at hpl
      simp at hpl
      exact hpl.symm
    have hce : c = e.snd := by
      rw [Game.play, hcg, hple] at hc
      simp [List.find?] at hc
      exact hc.symm
    subst hple
    subst hce
    constructor
    · show g.solve_1 = _
      exact Game.solve_1_cons g e.fst e.snd rest q hs (by rw [hcg]) hn
    · exact Game.solve_0_opt_play e.snd

/-- C10 witness: instance at the one-move position. -/
theorem C10_witness :
    Game.solve_for oneMoveGame 1 = Except.ok childWonX.solve_0 ∧
    childWonX.solve_0.opt_play = none :=
  C10_depth1_first_child oneMoveGame 0 childWonX rfl rfl rfl Player.X rfl

end Uttt
